import Mathlib

/-!
Shallow embedding of the feasibility-masking subsystem of
`rubin_scheduler/scheduler/basis_functions/mask_basis_funcs.py`, together
with theorems settling the frozen claims about it.

Modelling conventions:
* Machine floats are modelled as exact rationals (`ℚ`).
* Angles are modelled in degrees.  The source stores angles in radians via
  `np.radians`, a strictly increasing linear rescaling, so every ordering
  comparison and every modular range test of the source is preserved by the
  degree model; the full circle `2 * np.pi` is modelled as `360`.
* numpy float arrays are `List ℚ`; per-pixel value maps are `List Val`, where
  `Val.nan` is the IEEE NaN sentinel (`Val.mul` propagates it, as numpy
  multiplication does).
* The class `IntRounded` (from `rubin_scheduler.scheduler.utils`, not part of
  the sources at hand) is modelled from the spec: a wrapped float compared
  through its quantized integer key (spec §4.1, "relational comparisons
  between two wrapped values are computed on a quantized integer
  representation"); the quantization scale is `1e5`, the default scale of the
  wrapper.  `irKey` is the key; `irLt`/`irLe`/`irGt`/`irGe` are comparisons
  of wrapped values, and the source's subtraction-then-compare of wrapped
  values (`IntRounded a - IntRounded b >= IntRounded c`) is modelled on keys.
* The base class `BaseBasisFunction` is also not among the sources; it is
  modelled from the spec (§4.3): a basis function exposes a pure
  `evaluate`/`_calc_value` map and a cheap boolean `check_feasibility`
  (default: always true).
-/

namespace RubinMask

/-- Quantized integer key of the deterministic comparator.  Modelled from the
spec: the `IntRounded` wrapper rounds `value * scale` (scale `1e5`) to an
integer and compares the integers. -/
def irKey (x : ℚ) : ℤ := round (x * 100000)

/-- Comparison `IntRounded a < IntRounded b` of the source. -/
def irLt (a b : ℚ) : Prop := irKey a < irKey b

/-- Comparison `IntRounded a <= IntRounded b` of the source. -/
def irLe (a b : ℚ) : Prop := irKey a ≤ irKey b

/-- Comparison `IntRounded a > IntRounded b` of the source. -/
def irGt (a b : ℚ) : Prop := irKey b < irKey a

/-- Comparison `IntRounded a >= IntRounded b` of the source. -/
def irGe (a b : ℚ) : Prop := irKey b ≤ irKey a

instance (a b : ℚ) : Decidable (irLt a b) := inferInstanceAs (Decidable (irKey a < irKey b))

instance (a b : ℚ) : Decidable (irLe a b) := inferInstanceAs (Decidable (irKey a ≤ irKey b))

instance (a b : ℚ) : Decidable (irGt a b) := inferInstanceAs (Decidable (irKey b < irKey a))

instance (a b : ℚ) : Decidable (irGe a b) := inferInstanceAs (Decidable (irKey b ≤ irKey a))

/-- A numpy float cell: either NaN or a finite rational. -/
inductive Val where
  | nan : Val
  | num : ℚ → Val
deriving DecidableEq, Repr

/-- numpy multiplication on cells: NaN propagates through products. -/
def Val.mul : Val → Val → Val
  | .nan, _ => .nan
  | _, .nan => .nan
  | .num a, .num b => .num (a * b)

/-- Is this cell the masked (NaN) sentinel? -/
def Val.isNan : Val → Bool
  | .nan => true
  | .num _ => false

/-- The full circle: `2 * np.pi` of the source, i.e. 360 in the degree model. -/
def two_pi : ℚ := 360

/-- Python/numpy `%` for a positive modulus: `a - m * ⌊a / m⌋`. -/
def qmod (a m : ℚ) : ℚ := a - m * ⌊a / m⌋

/-- The conditions snapshot, as consumed by the masking functions: per-pixel
angle arrays, scalar time, telescope hardware travel limits, and the forward
projection capability `future_alt_az` (spec §2, §6). -/
structure Conditions where
  alt : List ℚ
  az : List ℚ
  solar_elongation : List ℚ
  HA : List ℚ
  mjd : ℚ
  tel_alt_min : ℚ
  tel_alt_max : ℚ
  tel_az_min : ℚ
  tel_az_max : ℚ
  bulk_cloud : ℚ
  futureAltAz : ℚ → List ℚ × List ℚ

/-- Python exceptions that the embedded code can raise. -/
inductive PyError where
  | typeError : PyError
  | attributeError : PyError
deriving DecidableEq, Repr

/-! ### SolarElongMaskBasisFunction -/

/-- Configuration of `SolarElongMaskBasisFunction`: `elong_limit` (stored
wrapped in `IntRounded`) and the template length `npix`. -/
structure SolarElongMask where
  elong_limit : ℚ
  npix : ℕ

/-- Embedding of `SolarElongMaskBasisFunction._calc_value`: start from the zero template,
set NaN where `IntRounded(conditions.solar_elongation) > self.elong_limit`. -/
def SolarElongMask.calcValue (bf : SolarElongMask) (c : Conditions) : List Val :=
  (List.range bf.npix).map fun i =>
    (c.solar_elongation[i]?).elim (Val.num 0) fun e =>
      if irGt e bf.elong_limit then Val.nan else Val.num 0

/-! ### HaMaskBasisFunction -/

/-- Configuration of `HaMaskBasisFunction`: optional hour-angle bounds (in
hours) and the template length. -/
structure HaMask where
  ha_min : Option ℚ
  ha_max : Option ℚ
  npix : ℕ

/-- The union of the two maskings of `HaMaskBasisFunction._calc_value` at
hour angle `h`: NaN where `conditions.HA < ha_min / 12 * π` (when `ha_min`
is set) and where `conditions.HA > ha_max / 12 * π` (when `ha_max` is set);
raw float comparisons in the source, not `IntRounded`; `π` radians is 180
degrees in the degree model. -/
def haMasked (bf : HaMask) (h : ℚ) : Prop :=
  bf.ha_min.elim False (fun m => h < m / 12 * 180) ∨
    bf.ha_max.elim False (fun m => h > m / 12 * 180)

/-- An absent optional bound imposes no constraint; decidability of the
`Option.elim` encoding of that. -/
instance decidableOptionElimFalse (o : Option ℚ) (f : ℚ → Prop) [inst : ∀ m, Decidable (f m)] :
    Decidable (o.elim False f) :=
  match o with
  | none => isFalse (fun h => h)
  | some m => inst m

instance (bf : HaMask) (h : ℚ) : Decidable (haMasked bf h) :=
  inferInstanceAs (Decidable (_ ∨ _))

/-- Embedding of `HaMaskBasisFunction._calc_value`: start from zeros; NaN on the union of
the two maskings. -/
def HaMask.calcValue (bf : HaMask) (c : Conditions) : List Val :=
  (List.range bf.npix).map fun i =>
    (c.HA[i]?).elim (Val.num 0) fun h =>
      if haMasked bf h then Val.nan else Val.num 0

/-! ### SolarElongationMaskBasisFunction -/

/-- Configuration of `SolarElongationMaskBasisFunction`: elongation band,
penalty fill value (default NaN) and template length. -/
structure SolarElongationMask where
  min_elong : ℚ
  max_elong : ℚ
  penalty : Val
  npix : ℕ

/-- Embedding of `SolarElongationMaskBasisFunction._calc_value`: template filled with the
penalty; pixels with
`IntRounded(min_elong) <= IntRounded(elong) <= IntRounded(max_elong)`
are set to 1. -/
def SolarElongationMask.calcValue (bf : SolarElongationMask) (c : Conditions) : List Val :=
  (List.range bf.npix).map fun i =>
    (c.solar_elongation[i]?).elim bf.penalty fun e =>
      if irGe e bf.min_elong ∧ irLe e bf.max_elong then Val.num 1 else bf.penalty

/-! ### ZenithMaskBasisFunction -/

/-- Configuration of `ZenithMaskBasisFunction`. -/
structure ZenithMask where
  min_alt : ℚ
  max_alt : ℚ
  npix : ℕ

/-- The cached template of `ZenithMaskBasisFunction`.  Its `__init__` assigns
`self.result = np.empty(hp.nside2npix(self.nside), dtype=float).fill(self.penalty)`;
`ndarray.fill` mutates in place and returns `None`, so the stored template is
`None`, not an array. -/
def ZenithMask.template (_bf : ZenithMask) : Option (List Val) := none

/-- Embedding of `ZenithMaskBasisFunction._calc_value`: `result = self.result.copy()`
raises `AttributeError` whenever the template is `None` (which it always is,
see `ZenithMask.template`); otherwise it would set pixels with
`IntRounded(min_alt) < IntRounded(alt) < IntRounded(max_alt)` to 1. -/
def ZenithMask.calcValue (bf : ZenithMask) (c : Conditions) : Except PyError (List Val) :=
  match bf.template with
  | none => Except.error PyError.attributeError
  | some t =>
    Except.ok <| (List.range t.length).map fun i =>
      (c.alt[i]?).elim (t.getD i Val.nan) fun a =>
        if irGt a bf.min_alt ∧ irLt a bf.max_alt then Val.num 1 else t.getD i Val.nan

/-! ### MaskAzimuthBasisFunction -/

/-- Configuration of `MaskAzimuthBasisFunction`: azimuth band (stored wrapped
in `IntRounded`), the out-of-bounds value (default NaN) and template length. -/
structure MaskAzimuth where
  az_min : ℚ
  az_max : ℚ
  out_of_bounds_val : Val
  npix : ℕ

/-- Embedding of `MaskAzimuthBasisFunction._calc_value`: template of ones; pixels with
`IntRounded(az) > az_min` and `IntRounded(az) < az_max` are set to the
out-of-bounds value. -/
def MaskAzimuth.calcValue (bf : MaskAzimuth) (c : Conditions) : List Val :=
  (List.range bf.npix).map fun i =>
    (c.az[i]?).elim (Val.num 1) fun a =>
      if irGt a bf.az_min ∧ irLt a bf.az_max then bf.out_of_bounds_val else Val.num 1

/-! ### AltAzShadowMaskBasisFunction -/

/-- Configuration of `AltAzShadowMaskBasisFunction`.  The constructor
defaults are `min_alt=20, max_alt=82, min_az=0, max_az=360, shadow_minutes=40,
pad=2`, with `shadow_time = shadow_minutes / 60 / 24` (days). -/
structure AltAzShadowMask where
  npix : ℕ
  min_alt : ℚ
  max_alt : ℚ
  min_az : ℚ
  max_az : ℚ
  shadow_time : ℚ
  pad : ℚ

/-- The time at which the future alt/az is requested:
`np.max(conditions.mjd + self.shadow_time)` (the scalar itself). -/
def AltAzShadowMask.futureTime (bf : AltAzShadowMask) (c : Conditions) : ℚ :=
  c.mjd + bf.shadow_time

/-- Array `future_alt` of `_calc_value`: first component of
`conditions.future_alt_az(mjd + shadow_time)`. -/
def AltAzShadowMask.future_alt (bf : AltAzShadowMask) (c : Conditions) : List ℚ :=
  (c.futureAltAz (bf.futureTime c)).1

/-- Array `future_az` of `_calc_value`: second component of
`conditions.future_alt_az(mjd + shadow_time)`. -/
def AltAzShadowMask.future_az (bf : AltAzShadowMask) (c : Conditions) : List ℚ :=
  (c.futureAltAz (bf.futureTime c)).2

/-- The lower altitude limit of `_calc_value`:
`np.max([conditions.tel_alt_min + self.pad, self.min_alt])` (the source pads
only the hardware limit, not the function's own bound). -/
def AltAzShadowMask.altLo (bf : AltAzShadowMask) (c : Conditions) : ℚ :=
  max (c.tel_alt_min + bf.pad) bf.min_alt

/-- The upper altitude limit of `_calc_value`:
`np.min([conditions.tel_alt_max - self.pad, self.max_alt])`. -/
def AltAzShadowMask.altHi (bf : AltAzShadowMask) (c : Conditions) : ℚ :=
  min (c.tel_alt_max - bf.pad) bf.max_alt

/-- One altitude band test of `_calc_value`:
`IntRounded(xs) >= IntRounded(lo)` and `IntRounded(xs) <= IntRounded(hi)`
at index `i` (an index beyond the array contributes no `np.where` hit). -/
def altOk (lo hi : ℚ) (xs : List ℚ) (i : ℕ) : Prop :=
  (xs[i]?).elim False fun a => irGe a lo ∧ irLe a hi

instance (lo hi : ℚ) (xs : List ℚ) (i : ℕ) : Decidable (altOk lo hi xs i) :=
  inferInstanceAs (Decidable ((xs[i]?).elim False fun a => irGe a lo ∧ irLe a hi))

/-- The `in_range_alt` array of `_calc_value` at pixel `i`: one increment for
the current altitude in band, one for the projected altitude in band. -/
def AltAzShadowMask.inRangeAlt (bf : AltAzShadowMask) (c : Conditions) (i : ℕ) : ℕ :=
  (if altOk (bf.altLo c) (bf.altHi c) c.alt i then 1 else 0) +
    (if altOk (bf.altLo c) (bf.altHi c) (bf.future_alt c) i then 1 else 0)

/-- One modular azimuth membership increment of `_calc_value`:
`np.where((xs - lower - offset) % two_pi <= azr, 1, 0)` at index `i`
(a raw float comparison in the source, not `IntRounded`). -/
def azMemCount (xs : List ℚ) (lower offset azr : ℚ) (i : ℕ) : ℕ :=
  (xs[i]?).elim 0 fun x => if qmod (x - lower - offset) two_pi ≤ azr then 1 else 0

/-- The `in_range1` array of `_calc_value` at index `i` (hardware azimuth
range): if `IntRounded(tel_az_max) - IntRounded(tel_az_min) >= IntRounded(2π)`
the whole `len(az)`-sized array is set to 2; otherwise the two modular tests
(current and projected azimuth) against
`azr = (tel_az_max - tel_az_min) % 2π - 2 * pad` with offset `pad`. -/
def AltAzShadowMask.inRange1 (bf : AltAzShadowMask) (c : Conditions) (i : ℕ) : ℕ :=
  if irKey c.tel_az_max - irKey c.tel_az_min ≥ irKey two_pi then
    if i < c.az.length then 2 else 0
  else
    azMemCount c.az c.tel_az_min bf.pad (qmod (c.tel_az_max - c.tel_az_min) two_pi - 2 * bf.pad) i +
      azMemCount (bf.future_az c) c.tel_az_min bf.pad
        (qmod (c.tel_az_max - c.tel_az_min) two_pi - 2 * bf.pad) i

/-- The `in_range2` array of `_calc_value` at index `i` (the function's own
azimuth range): if `IntRounded(max_az) - IntRounded(min_az) >= IntRounded(2π)`
the whole array is 2; otherwise the two modular tests against
`azr = (max_az - min_az) % 2π` with no pad offset. -/
def AltAzShadowMask.inRange2 (bf : AltAzShadowMask) (c : Conditions) (i : ℕ) : ℕ :=
  if irKey bf.max_az - irKey bf.min_az ≥ irKey two_pi then
    if i < c.az.length then 2 else 0
  else
    azMemCount c.az bf.min_az 0 (qmod (bf.max_az - bf.min_az) two_pi) i +
      azMemCount (bf.future_az c) bf.min_az 0 (qmod (bf.max_az - bf.min_az) two_pi) i

/-- Embedding of `AltAzShadowMaskBasisFunction._calc_value`: the result starts fully
masked (`np.nan`); a pixel is set to 0 exactly when `in_range_alt > 1` and
(`in_range1 > 1` and `in_range2 > 1`, i.e. `in_range_az` was set to 2). -/
def AltAzShadowMask.calcValue (bf : AltAzShadowMask) (c : Conditions) : List Val :=
  (List.range bf.npix).map fun i =>
    if bf.inRangeAlt c i > 1 ∧ bf.inRange1 c i > 1 ∧ bf.inRange2 c i > 1 then
      Val.num 0
    else
      Val.nan

/-! ### AreaCheckMaskBasisFunction -/

/-- A member basis function, as the aggregator sees it.  Modelled from the
spec (§4.3) for the base contract not among the sources: `calcValue` is the
pure full-map evaluation `bf(conditions)`, `checkFeas` the cheap boolean
pre-check (default always true). -/
structure BasisFunction where
  calcValue : Conditions → List Val
  checkFeas : Conditions → Bool

/-- Configuration of `AreaCheckMaskBasisFunction`: the member list, the
template length `npix`, the per-pixel area
`hp.nside2pixarea(nside, degrees=True)` of the grid, and `min_area`. -/
structure AreaCheckMask where
  bf_list : List BasisFunction
  npix : ℕ
  pixArea : ℚ
  min_area : ℚ

/-- The all-zeros template `self.result` of `AreaCheckMaskBasisFunction`. -/
def zerosMap (n : ℕ) : List Val := List.replicate n (Val.num 0)

/-- Elementwise product of two maps (`area_map *= bf(conditions)`). -/
def mulMaps (a b : List Val) : List Val := List.zipWith Val.mul a b

/-- Embedding of `AreaCheckMaskBasisFunction._calc_value`: start from the zeros template
and multiply every member's map into it. -/
def AreaCheckMask.calcValue (m : AreaCheckMask) (c : Conditions) : List Val :=
  m.bf_list.foldl (fun acc bf => mulMaps acc (bf.calcValue c)) (zerosMap m.npix)

/-- The first loop of `AreaCheckMaskBasisFunction.check_feasibility`: walk
the members, return `False` at the first failing cheap pre-check. -/
def precheckList : List BasisFunction → Conditions → Bool
  | [], _ => true
  | bf :: rest, c => if bf.checkFeas c then precheckList rest c else false

/-- Count `np.where(area_map == 0)[0].size`: the number of cells equal to 0
(NaN compares unequal to 0 in numpy). -/
def countEqZero (xs : List Val) : ℕ := xs.countP fun v => decide (v = Val.num 0)

/-- Embedding of `AreaCheckMaskBasisFunction.check_feasibility`: fail on the first failing
member pre-check; otherwise build the combined map, count its zero cells and
compare `pixarea * count < min_area` (strict, so the exact boundary passes). -/
def AreaCheckMask.checkFeasibility (m : AreaCheckMask) (c : Conditions) : Bool :=
  if precheckList m.bf_list c then
    if m.pixArea * (countEqZero (m.calcValue c) : ℚ) < m.min_area then false else true
  else false

/-- Instrumented run of `check_feasibility`: the boolean result, how many
members had `check_feasibility` invoked, and how many had their full value
map computed.  Mirrors the control flow of the source (first loop with early
return, then the `area_map` loop over all members). -/
structure FeasTrace where
  result : Bool
  prechecks : ℕ
  mapEvals : ℕ
deriving DecidableEq, Repr

/-- The first loop of `check_feasibility` with an invocation count:
stops at the first member whose pre-check returns false. -/
def precheckTrace : List BasisFunction → Conditions → Bool × ℕ
  | [], _ => (true, 0)
  | bf :: rest, c =>
    if bf.checkFeas c then
      let r := precheckTrace rest c
      (r.1, r.2 + 1)
    else (false, 1)

/-- Instrumented `AreaCheckMaskBasisFunction.check_feasibility`: when the
first loop returns early, no member map is ever computed; otherwise the
second loop evaluates every member's map. -/
def AreaCheckMask.checkFeasTrace (m : AreaCheckMask) (c : Conditions) : FeasTrace :=
  let p := precheckTrace m.bf_list c
  if p.1 then
    { result := if m.pixArea * (countEqZero (m.calcValue c) : ℚ) < m.min_area then false else true
      prechecks := p.2
      mapEvals := m.bf_list.length }
  else
    { result := false, prechecks := p.2, mapEvals := 0 }

/-! ### The Python class graph of the module, for `super` resolution -/

/-- The classes declared in `mask_basis_funcs.py`, plus their shared base. -/
inductive PyClass where
  | baseBasisFunction
  | solarElongMaskBasisFunction
  | haMaskBasisFunction
  | areaCheckMaskBasisFunction
  | solarElongationMaskBasisFunction
  | zenithMaskBasisFunction
  | planetMaskBasisFunction
  | altAzShadowMaskBasisFunction
  | zenithShadowMaskBasisFunction
  | moonAvoidanceBasisFunction
  | bulkCloudBasisFunction
  | mapCloudBasisFunction
  | maskAzimuthBasisFunction
deriving DecidableEq, Repr

/-- The direct base class of each class, read off the `class X(Y)` headers of
the module: every masking class extends `BaseBasisFunction` directly. -/
def pyBase : PyClass → Option PyClass
  | .baseBasisFunction => none
  | _ => some .baseBasisFunction

/-- Subclass test (reflexive, following the single-inheritance chain), as
used by Python's two-argument `super(T, obj)`, which requires
`isinstance(obj, T)`. -/
def isSubclass (cls sup : PyClass) : Bool :=
  decide (cls = sup) ||
    (match pyBase cls with
     | some b => decide (b = sup)
     | none => false)

/-- Arguments of `MapCloudBasisFunction.__init__`. -/
structure MapCloudArgs where
  nside : ℕ
  max_cloud_map : Option (List ℚ)
  max_val : ℚ
  out_of_bounds_val : Val

/-- Embedding of `MapCloudBasisFunction.__init__`: its first statement is
`super(BulkCloudBasisFunction, self).__init__(nside=nside)` with
`self : MapCloudBasisFunction`.  Two-argument `super(T, obj)` raises
`TypeError` unless `type(obj)` is a subclass of `T`; `MapCloudBasisFunction`
extends `BaseBasisFunction`, not `BulkCloudBasisFunction`, so the call fails
before any field is assigned. -/
def mapCloudInit (_args : MapCloudArgs) : Except PyError Unit :=
  if isSubclass .mapCloudBasisFunction .bulkCloudBasisFunction then
    Except.ok ()
  else
    Except.error PyError.typeError

/-! ### Definitions written from the claims' wording, for comparison -/

/-- The lower edge of the altitude band as claim C1 words it: both the
function's own band and the hardware band shrunk inward by `pad`, the tighter
bound winning.  (The source pads only the hardware bound; compare
`AltAzShadowMask.altLo`.) -/
def specClaimAltLo (bf : AltAzShadowMask) (c : Conditions) : ℚ :=
  max (c.tel_alt_min + bf.pad) (bf.min_alt + bf.pad)

/-- The upper edge of the altitude band as claim C1 words it; compare
`AltAzShadowMask.altHi`. -/
def specClaimAltHi (bf : AltAzShadowMask) (c : Conditions) : ℚ :=
  min (c.tel_alt_max - bf.pad) (bf.max_alt - bf.pad)

/-- The elementwise product of the members' maps alone, as claims C2 and C5
word it: a fold of elementwise multiplication over the members' maps starting
from the multiplicative identity map (all ones).  (The source instead starts
from its all-zeros template; compare `AreaCheckMask.calcValue`.) -/
def membersProduct (m : AreaCheckMask) (c : Conditions) : List Val :=
  (m.bf_list.map fun bf => bf.calcValue c).foldl mulMaps (List.replicate m.npix (Val.num 1))

/-- Claim C2's pixel count: the number of pixels at which the members' own
elementwise product equals 0. -/
def membersProductZeroCount (m : AreaCheckMask) (c : Conditions) : ℕ :=
  countEqZero (membersProduct m c)

/-- The number of pixels of the grid at which no member's map is NaN (the
pixels the aggregator's combined zeros-template map leaves at 0). -/
def unmaskedCount (m : AreaCheckMask) (c : Conditions) : ℕ :=
  (List.range m.npix).countP fun i =>
    m.bf_list.all fun bf => !((bf.calcValue c).getD i Val.nan).isNan

/-! ### Concrete fixtures used by counterexamples and witnesses -/

/-- A one-pixel `AltAzShadowMaskBasisFunction` with the constructor
defaults: `min_alt=20, max_alt=82, min_az=0, max_az=360,
shadow_minutes=40` (so `shadow_time = 1/36` days), `pad=2`. -/
def bfC1 : AltAzShadowMask :=
  { npix := 1, min_alt := 20, max_alt := 82, min_az := 0, max_az := 360,
    shadow_time := 1 / 36, pad := 2 }

/-- A one-pixel snapshot: the pixel sits at altitude 21° now and after the
shadow interval; hardware limits are alt `[10°, 86°]`, az unrestricted. -/
def cC1 : Conditions :=
  { alt := [21], az := [100], solar_elongation := [0], HA := [0], mjd := 0,
    tel_alt_min := 10, tel_alt_max := 86, tel_az_min := 0, tel_az_max := 360,
    bulk_cloud := 0, futureAltAz := fun _ => ([21], [100]) }

/-- A one-pixel `HaMaskBasisFunction` with `ha_min = 0` and no upper bound. -/
def bfH : HaMask := { ha_min := some 0, ha_max := none, npix := 1 }

/-- A one-pixel snapshot with hour angle exactly at the `ha_min` threshold. -/
def cH1 : Conditions :=
  { alt := [50], az := [100], solar_elongation := [0], HA := [0], mjd := 0,
    tel_alt_min := 0, tel_alt_max := 90, tel_az_min := 0, tel_az_max := 360,
    bulk_cloud := 0, futureAltAz := fun _ => ([50], [100]) }

/-- The same snapshot with the hour angle perturbed by half a quantization
step: its `IntRounded` key is unchanged but the raw value crosses the
threshold. -/
def cH2 : Conditions := { cH1 with HA := [-1 / 200000] }

/-- The same snapshot with elongation and azimuth perturbed by a third of a
quantization step: all `IntRounded` keys are unchanged. -/
def cH3 : Conditions :=
  { cH1 with solar_elongation := [1 / 300000], az := [100 + 1 / 300000] }

/-- A one-pixel `SolarElongMaskBasisFunction` with the default limit 45°. -/
def bfSE : SolarElongMask := { elong_limit := 45, npix := 1 }

/-- A one-pixel `MaskAzimuthBasisFunction` with the default band
`(0°, 180°)` and default out-of-bounds value NaN. -/
def bfAzOne : MaskAzimuth := { az_min := 0, az_max := 180, out_of_bounds_val := Val.nan, npix := 1 }

/-- A one-pixel snapshot whose azimuth 200° lies outside `(0°, 180°)`, so
`bfAzOne` maps it to the feasible sentinel 1. -/
def cOne : Conditions :=
  { alt := [50], az := [200], solar_elongation := [0], HA := [0], mjd := 0,
    tel_alt_min := 0, tel_alt_max := 90, tel_az_min := 0, tel_az_max := 360,
    bulk_cloud := 0, futureAltAz := fun _ => ([50], [200]) }

/-- Fixture `bfAzOne` packaged as an aggregator member (cheap pre-check defaults to
true, per the base contract). -/
def memberOne : BasisFunction :=
  { calcValue := fun c => bfAzOne.calcValue c, checkFeas := fun _ => true }

/-- A member whose cheap pre-check always fails. -/
def failMember : BasisFunction :=
  { calcValue := fun _ => [], checkFeas := fun _ => false }

/-- A one-pixel aggregator over `memberOne` with per-pixel area 1 deg² and
minimum area 1/2 deg². -/
def mOne : AreaCheckMask := { bf_list := [memberOne], npix := 1, pixArea := 1, min_area := 1 / 2 }

/-- An aggregator whose first member fails its cheap pre-check. -/
def mTwo : AreaCheckMask :=
  { bf_list := [failMember, memberOne], npix := 1, pixArea := 1, min_area := 1 / 2 }

/-- A two-configuration fixture for mask monotonicity: the default
`SolarElongationMaskBasisFunction` band `[0°, 60°]`. -/
def bfElL : SolarElongationMask := { min_elong := 0, max_elong := 60, penalty := Val.nan, npix := 1 }

/-- A tighter elongation band `[10°, 50°]` at the same resolution. -/
def bfElT : SolarElongationMask := { min_elong := 10, max_elong := 50, penalty := Val.nan, npix := 1 }

/-- A one-pixel snapshot with solar elongation 30°, inside both bands. -/
def cEl : Conditions :=
  { alt := [50], az := [100], solar_elongation := [30], HA := [0], mjd := 0,
    tel_alt_min := 0, tel_alt_max := 90, tel_az_min := 0, tel_az_max := 360,
    bulk_cloud := 0, futureAltAz := fun _ => ([50], [100]) }

/-- A one-pixel `AltAzShadowMaskBasisFunction` whose own azimuth range
`[0°, 180°]` does not span the full circle, so its azimuth vote takes the
raw modular-arithmetic branch. -/
def bfZ2 : AltAzShadowMask :=
  { npix := 1, min_alt := 20, max_alt := 82, min_az := 0, max_az := 180,
    shadow_time := 1 / 36, pad := 2 }

/-- A one-pixel snapshot whose azimuth sits exactly at the upper edge 180°
of `bfZ2`'s own range, now and after the shadow interval. -/
def cZ1 : Conditions :=
  { alt := [50], az := [180], solar_elongation := [0], HA := [0], mjd := 0,
    tel_alt_min := 0, tel_alt_max := 90, tel_az_min := 0, tel_az_max := 360,
    bulk_cloud := 0, futureAltAz := fun _ => ([50], [180]) }

/-- The same snapshot with the azimuth (current and projected) perturbed by
a third of a quantization step: every `IntRounded` key is unchanged, but the
raw value crosses the modular membership threshold. -/
def cZ2 : Conditions :=
  { cZ1 with az := [180 + 1 / 300000], futureAltAz := fun _ => ([50], [180 + 1 / 300000]) }

/-! ## Helper lemmas -/

/-- Evaluation rule for the comparator key, for concrete rationals. -/
theorem irKey_eq {q : ℚ} {z : ℤ} (h1 : (z : ℚ) ≤ q * 100000 + 1 / 2)
    (h2 : q * 100000 + 1 / 2 < z + 1) : irKey q = z := by
  unfold irKey
  rw [round_eq]
  rw [Int.floor_eq_iff]
  exact ⟨h1, h2⟩

/-- The quantized key of the deterministic comparator is monotone. -/
theorem irKey_mono {a b : ℚ} (h : a ≤ b) : irKey a ≤ irKey b := by
  unfold irKey
  rw [round_eq, round_eq]
  exact Int.floor_le_floor (by linarith)

/-- The comparator's key of the full circle. -/
theorem irKey_two_pi : irKey two_pi = 36000000 := by
  apply irKey_eq <;> norm_num [two_pi]

/-- A numerical span of at least a full circle always passes the source's
quantized span test: the key difference is at least the key of `2π`. -/
theorem irKey_span_ge {a b : ℚ} (h : two_pi ≤ a - b) : irKey two_pi ≤ irKey a - irKey b := by
  have h1 : a * 100000 - 1 / 2 < ((irKey a : ℤ) : ℚ) := sub_half_lt_round _
  have h2 : ((irKey b : ℤ) : ℚ) ≤ b * 100000 + 1 / 2 := round_le_add_half _
  have h360 : (360 : ℚ) ≤ a - b := h
  have hq : (35999999 : ℚ) < ((irKey a : ℤ) : ℚ) - ((irKey b : ℤ) : ℚ) := by linarith
  have hz : (35999999 : ℤ) < irKey a - irKey b := by exact_mod_cast hq
  rw [irKey_two_pi]
  omega

/-- Comparator keys of the concrete angles used by the fixtures. -/
theorem irKey_0 : irKey 0 = 0 := irKey_eq (by norm_num) (by norm_num)

theorem irKey_10 : irKey 10 = 1000000 := irKey_eq (by norm_num) (by norm_num)

theorem irKey_20 : irKey 20 = 2000000 := irKey_eq (by norm_num) (by norm_num)

theorem irKey_21 : irKey 21 = 2100000 := irKey_eq (by norm_num) (by norm_num)

theorem irKey_22 : irKey 22 = 2200000 := irKey_eq (by norm_num) (by norm_num)

theorem irKey_30 : irKey 30 = 3000000 := irKey_eq (by norm_num) (by norm_num)

theorem irKey_50 : irKey 50 = 5000000 := irKey_eq (by norm_num) (by norm_num)

theorem irKey_82 : irKey 82 = 8200000 := irKey_eq (by norm_num) (by norm_num)

theorem irKey_100 : irKey 100 = 10000000 := irKey_eq (by norm_num) (by norm_num)

theorem irKey_180 : irKey 180 = 18000000 := irKey_eq (by norm_num) (by norm_num)

theorem irKey_200 : irKey 200 = 20000000 := irKey_eq (by norm_num) (by norm_num)

theorem irKey_360 : irKey 360 = 36000000 := irKey_eq (by norm_num) (by norm_num)

/-- Half a quantization step below zero still has key 0. -/
theorem irKey_neg_small : irKey (-1 / 200000) = 0 := irKey_eq (by norm_num) (by norm_num)

/-- A third of a quantization step above zero still has key 0. -/
theorem irKey_third_small : irKey (1 / 300000) = 0 := irKey_eq (by norm_num) (by norm_num)

/-- Key of 100° perturbed by a third of a quantization step keeps the key of 100°. -/
theorem irKey_100_plus : irKey (100 + 1 / 300000) = 10000000 :=
  irKey_eq (by norm_num) (by norm_num)

/-- Key of 180° perturbed by a third of a quantization step keeps the key of 180°. -/
theorem irKey_180_plus : irKey (180 + 1 / 300000) = 18000000 :=
  irKey_eq (by norm_num) (by norm_num)

/-- Modular reduction of 180° by the full circle is the identity. -/
theorem qmod_180 : qmod 180 two_pi = 180 := by
  unfold qmod two_pi
  rw [show ⌊(180 : ℚ) / 360⌋ = 0 from by rw [Int.floor_eq_iff] <;> norm_num]
  norm_num

/-- Modular reduction of the perturbed 180° by the full circle is the
identity as well. -/
theorem qmod_180_plus : qmod (180 + 1 / 300000) two_pi = 180 + 1 / 300000 := by
  unfold qmod two_pi
  rw [show ⌊(180 + 1 / 300000 : ℚ) / 360⌋ = 0 from by rw [Int.floor_eq_iff] <;> norm_num]
  norm_num

/-- Predicate `Val.isNan` detects exactly the NaN sentinel. -/
theorem isNan_eq_true_iff (v : Val) : v.isNan = true ↔ v = Val.nan := by
  cases v <;> simp [Val.isNan]

/-! ## Theorems for the claims -/

/-- Claim C3 (status: code_bug).  The claim says every concrete masking basis
function's `evaluate` never raises for well-formed input.  But
`ZenithMaskBasisFunction.__init__` stores
`np.empty(...).fill(self.penalty)` — `ndarray.fill` returns `None` — so its
cached template is `None` and every `_calc_value` call raises
`AttributeError` on `self.result.copy()`, for every configuration and every
snapshot. -/
theorem claim3_theorem (bf : ZenithMask) (c : Conditions) :
    bf.calcValue c = Except.error PyError.attributeError := rfl

/-- Claim C10 (status: confirmed).  `MapCloudBasisFunction.__init__` calls
`super(BulkCloudBasisFunction, self).__init__`, but `MapCloudBasisFunction`
extends `BaseBasisFunction` and is not a subclass of
`BulkCloudBasisFunction`, so construction raises `TypeError` for every
argument combination and no instance can ever be created. -/
theorem claim10_theorem (args : MapCloudArgs) :
    mapCloudInit args = Except.error PyError.typeError := rfl

/-- Claim C8 (status: confirmed).  With the default out-of-bounds value (NaN),
`MaskAzimuthBasisFunction.evaluate` masks exactly the pixels whose azimuth
lies strictly inside the open interval `(az_min, az_max)` under the
deterministic comparator, and returns 1 for every other pixel. -/
theorem claim8_theorem (bf : MaskAzimuth) (c : Conditions)
    (hoob : bf.out_of_bounds_val = Val.nan) (i : ℕ) (hi : i < bf.npix)
    (ha : i < c.az.length) :
    ((bf.calcValue c)[i]? = some Val.nan ↔
      irGt (c.az.get ⟨i, ha⟩) bf.az_min ∧ irLt (c.az.get ⟨i, ha⟩) bf.az_max) ∧
    (¬(irGt (c.az.get ⟨i, ha⟩) bf.az_min ∧ irLt (c.az.get ⟨i, ha⟩) bf.az_max) →
      (bf.calcValue c)[i]? = some (Val.num 1)) := by
  have hsome : c.az[i]? = some (c.az.get ⟨i, ha⟩) := by
    rw [List.getElem?_eq_getElem ha]
    simp [List.get_eq_getElem]
  have hmap : (bf.calcValue c)[i]? =
      some (if irGt (c.az.get ⟨i, ha⟩) bf.az_min ∧ irLt (c.az.get ⟨i, ha⟩) bf.az_max
        then bf.out_of_bounds_val else Val.num 1) := by
    unfold MaskAzimuth.calcValue
    rw [List.getElem?_map, List.getElem?_range hi, Option.map_some', hsome, Option.elim_some]
  rw [hmap, hoob]
  by_cases hc : irGt (c.az.get ⟨i, ha⟩) bf.az_min ∧ irLt (c.az.get ⟨i, ha⟩) bf.az_max
  · rw [if_pos hc]
    exact ⟨⟨fun _ => hc, fun _ => rfl⟩, fun hn => absurd hc hn⟩
  · rw [if_neg hc]
    refine ⟨⟨fun h => absurd (Option.some.inj h) (by simp), fun h => absurd h hc⟩, fun _ => rfl⟩

/-- The hypothesis-discharging witness for `claim8_theorem`: the fixture
pixel at azimuth 200° is outside `(0°, 180°)`, hence mapped to 1. -/
theorem claim8_witness :
    ((bfAzOne.calcValue cOne)[0]? = some Val.nan ↔
      irGt (cOne.az.get ⟨0, by decide⟩) bfAzOne.az_min ∧
        irLt (cOne.az.get ⟨0, by decide⟩) bfAzOne.az_max) ∧
    (¬(irGt (cOne.az.get ⟨0, by decide⟩) bfAzOne.az_min ∧
        irLt (cOne.az.get ⟨0, by decide⟩) bfAzOne.az_max) →
      (bfAzOne.calcValue cOne)[0]? = some (Val.num 1)) :=
  claim8_theorem bfAzOne cOne rfl 0 (by decide) (by decide)

/-- Claim C9 (status: confirmed).  Tightening the elongation band of
`SolarElongationMaskBasisFunction` (with the default NaN penalty) never adds
a pixel to the in-range (value 1) set: every pixel set to 1 by the tighter
configuration is set to 1 by the looser one. -/
theorem claim9_theorem (bfT bfL : SolarElongationMask) (c : Conditions)
    (hn : bfT.npix = bfL.npix)
    (hpT : bfT.penalty = Val.nan) (hpL : bfL.penalty = Val.nan)
    (hmin : bfL.min_elong ≤ bfT.min_elong) (hmax : bfT.max_elong ≤ bfL.max_elong)
    (i : ℕ) (h1 : (bfT.calcValue c)[i]? = some (Val.num 1)) :
    (bfL.calcValue c)[i]? = some (Val.num 1) := by
  unfold SolarElongationMask.calcValue at h1 ⊢
  rw [List.getElem?_map] at h1 ⊢
  by_cases hi : i < bfT.npix
  swap
  · exfalso
    rw [List.getElem?_eq_none (by simpa using Nat.le_of_not_lt hi)] at h1
    simp at h1
  · rw [List.getElem?_range hi, Option.map_some'] at h1
    rw [List.getElem?_range (hn ▸ hi), Option.map_some']
    cases he : c.solar_elongation[i]? with
    | none =>
      rw [he, Option.elim_none, hpT] at h1
      simp at h1
    | some e =>
      rw [he, Option.elim_some] at h1
      rw [Option.elim_some]
      by_cases hc : irGe e bfT.min_elong ∧ irLe e bfT.max_elong
      · have hA : irGe e bfL.min_elong := le_trans (irKey_mono hmin) hc.1
        have hB : irLe e bfL.max_elong := le_trans hc.2 (irKey_mono hmax)
        rw [if_pos ⟨hA, hB⟩]
      · rw [if_neg hc, hpT] at h1
        simp at h1

/-- Evaluation of the tighter fixture: elongation 30° is inside `[10°, 50°]`. -/
theorem bfElT_eval : (bfElT.calcValue cEl)[0]? = some (Val.num 1) := by
  have hA : irGe (30 : ℚ) 10 := by
    show irKey (10 : ℚ) ≤ irKey 30
    rw [irKey_10, irKey_30]
    norm_num
  have hB : irLe (30 : ℚ) 50 := by
    show irKey (30 : ℚ) ≤ irKey 50
    rw [irKey_30, irKey_50]
    norm_num
  unfold SolarElongationMask.calcValue
  rw [List.getElem?_map, List.getElem?_range (by decide : 0 < bfElT.npix), Option.map_some',
    show cEl.solar_elongation[0]? = some 30 from rfl, Option.elim_some]
  rw [if_pos ⟨hA, hB⟩]

/-- The hypothesis-discharging witness for `claim9_theorem`, at the
fixture bands `[10°, 50°] ⊆ [0°, 60°]` and elongation 30°. -/
theorem claim9_witness : (bfElL.calcValue cEl)[0]? = some (Val.num 1) :=
  claim9_theorem bfElT bfElL cEl rfl rfl rfl (by norm_num [bfElL, bfElT])
    (by norm_num [bfElL, bfElT]) 0 bfElT_eval

/-- Evaluation of the hour-angle fixture at the exact threshold: hour angle
0 is not raw-less-than the threshold 0, so the pixel holds 0. -/
theorem bfH_cH1_eval : bfH.calcValue cH1 = [Val.num 0] := by
  unfold HaMask.calcValue
  rw [show bfH.npix = 1 from rfl, show List.range 1 = [0] from rfl, List.map_cons,
    List.map_nil, show cH1.HA[0]? = some (0 : ℚ) from rfl, Option.elim_some]
  rw [if_neg]
  intro hmask
  rcases hmask with hlow | hhigh
  · have h : (0 : ℚ) < 0 / 12 * 180 := hlow
    norm_num at h
  · exact hhigh

/-- Evaluation of the perturbed hour-angle fixture: −1/200000 is
raw-less-than the threshold 0, so the pixel is masked. -/
theorem bfH_cH2_eval : bfH.calcValue cH2 = [Val.nan] := by
  unfold HaMask.calcValue
  rw [show bfH.npix = 1 from rfl, show List.range 1 = [0] from rfl, List.map_cons,
    List.map_nil, show cH2.HA[0]? = some ((-1 : ℚ) / 200000) from rfl, Option.elim_some]
  rw [if_pos]
  left
  show (-1 / 200000 : ℚ) < 0 / 12 * 180
  norm_num

/-- Index-wise reading of pointwise key agreement of two arrays. -/
theorem getElem?_map_irKey_congr {l l' : List ℚ} (h : l.map irKey = l'.map irKey) (i : ℕ) :
    (l[i]?).map irKey = (l'[i]?).map irKey := by
  rw [← List.getElem?_map, ← List.getElem?_map, h]

/-- The altitude band test depends only on the quantized keys of the band
edges and of the tested array. -/
theorem altOk_key_iff {lo lo' hi hi' : ℚ} {xs xs' : List ℚ} (i : ℕ)
    (hlo : irKey lo = irKey lo') (hhi : irKey hi = irKey hi')
    (hxs : xs.map irKey = xs'.map irKey) :
    altOk lo hi xs i ↔ altOk lo' hi' xs' i := by
  have hk := getElem?_map_irKey_congr hxs i
  unfold altOk
  cases hx : xs[i]? with
  | none =>
    cases hx' : xs'[i]? with
    | none => simp
    | some a' => rw [hx, hx'] at hk; simp at hk
  | some a =>
    cases hx' : xs'[i]? with
    | none => rw [hx, hx'] at hk; simp at hk
    | some a' =>
      rw [hx, hx'] at hk
      simp only [Option.map_some', Option.some.injEq] at hk
      rw [Option.elim_some, Option.elim_some]
      unfold irGe irLe
      rw [hk, hlo, hhi]

/-- The altitude vote at a pixel exceeds 1 exactly when both the current and
the projected altitude pass the band test. -/
theorem inRangeAlt_gt_one_iff (bf : AltAzShadowMask) (c : Conditions) (i : ℕ) :
    bf.inRangeAlt c i > 1 ↔
      altOk (bf.altLo c) (bf.altHi c) c.alt i ∧
        altOk (bf.altLo c) (bf.altHi c) (bf.future_alt c) i := by
  unfold AltAzShadowMask.inRangeAlt
  by_cases hA : altOk (bf.altLo c) (bf.altHi c) c.alt i <;>
    by_cases hB : altOk (bf.altLo c) (bf.altHi c) (bf.future_alt c) i <;>
      simp [hA, hB]

/-- Unfolding of the altitude band test into an explicit lookup. -/
theorem altOk_iff (lo hi : ℚ) (xs : List ℚ) (i : ℕ) :
    altOk lo hi xs i ↔ ∃ a, xs[i]? = some a ∧ irGe a lo ∧ irLe a hi := by
  unfold altOk
  cases hx : xs[i]? with
  | none => simp
  | some a => simp

/-- Claim C1 (status: corrected; amended theorem).  A pixel of
`AltAzShadowMaskBasisFunction.evaluate` is unmasked iff (i) its current and
its projected altitude both lie, inclusively under the deterministic
comparator, in the band whose lower edge is the maximum of the
pad-shrunk hardware minimum and the function's own (unpadded) `min_alt`,
and whose upper edge is the minimum of the pad-shrunk hardware maximum and
the function's own (unpadded) `max_alt`, and (ii) both azimuth range votes
pass.  (The claim's version, with the function's own band also shrunk by
`pad`, is refuted by `claim1_counterexample`.) -/
theorem claim1_theorem (bf : AltAzShadowMask) (c : Conditions) (i : ℕ) (hi : i < bf.npix) :
    (bf.calcValue c)[i]? = some (Val.num 0) ↔
      ((∃ a, c.alt[i]? = some a ∧
          irGe a (max (c.tel_alt_min + bf.pad) bf.min_alt) ∧
          irLe a (min (c.tel_alt_max - bf.pad) bf.max_alt)) ∧
        (∃ a, (bf.future_alt c)[i]? = some a ∧
          irGe a (max (c.tel_alt_min + bf.pad) bf.min_alt) ∧
          irLe a (min (c.tel_alt_max - bf.pad) bf.max_alt))) ∧
      bf.inRange1 c i > 1 ∧ bf.inRange2 c i > 1 := by
  have hmap : (bf.calcValue c)[i]? =
      some (if bf.inRangeAlt c i > 1 ∧ bf.inRange1 c i > 1 ∧ bf.inRange2 c i > 1
        then Val.num 0 else Val.nan) := by
    unfold AltAzShadowMask.calcValue
    rw [List.getElem?_map, List.getElem?_range hi, Option.map_some']
  have halt := inRangeAlt_gt_one_iff bf c i
  have h1 := altOk_iff (bf.altLo c) (bf.altHi c) c.alt i
  have h2 := altOk_iff (bf.altLo c) (bf.altHi c) (bf.future_alt c) i
  unfold AltAzShadowMask.altLo AltAzShadowMask.altHi at h1 h2
  rw [hmap]
  constructor
  · intro h
    have hc : bf.inRangeAlt c i > 1 ∧ bf.inRange1 c i > 1 ∧ bf.inRange2 c i > 1 := by
      by_contra hc
      rw [if_neg hc] at h
      exact Val.noConfusion (Option.some.inj h)
    exact ⟨⟨h1.mp (halt.mp hc.1).1, h2.mp (halt.mp hc.1).2⟩, hc.2.1, hc.2.2⟩
  · rintro ⟨⟨ha, hb⟩, hr1, hr2⟩
    rw [if_pos ⟨halt.mpr ⟨h1.mpr ha, h2.mpr hb⟩, hr1, hr2⟩]

/-- The altitude limits actually used by the fixture: the padded hardware
minimum `10 + 2` loses to the unpadded own bound 20. -/
theorem bfC1_altLo : bfC1.altLo cC1 = 20 := by
  show max ((10 : ℚ) + 2) 20 = 20
  rw [max_eq_right (by norm_num : ((10 : ℚ) + 2) ≤ 20)]

/-- The padded hardware maximum `86 - 2` loses to the own bound 82. -/
theorem bfC1_altHi : bfC1.altHi cC1 = 82 := by
  show min ((86 : ℚ) - 2) 82 = 82
  rw [min_eq_right (by norm_num : (82 : ℚ) ≤ 86 - 2)]

/-- The fixture pixel at 21° passes the code's altitude band `[20°, 82°]`
both now and after the shadow interval. -/
theorem bfC1_inRangeAlt : bfC1.inRangeAlt cC1 0 = 2 := by
  have hok : altOk (bfC1.altLo cC1) (bfC1.altHi cC1) [21] 0 := by
    rw [bfC1_altLo, bfC1_altHi]
    show irGe (21 : ℚ) 20 ∧ irLe (21 : ℚ) 82
    constructor
    · show irKey (20 : ℚ) ≤ irKey 21
      rw [irKey_20, irKey_21]
      norm_num
    · show irKey (21 : ℚ) ≤ irKey 82
      rw [irKey_21, irKey_82]
      norm_num
  unfold AltAzShadowMask.inRangeAlt
  rw [show cC1.alt = [21] from rfl, show bfC1.future_alt cC1 = [21] from rfl, if_pos hok]

/-- The fixture's hardware azimuth span is a full circle, so the hardware
azimuth vote passes. -/
theorem bfC1_inRange1 : bfC1.inRange1 cC1 0 = 2 := by
  have hkey : irKey (360 : ℚ) - irKey (0 : ℚ) ≥ irKey two_pi := by
    rw [irKey_360, irKey_0, irKey_two_pi]
    norm_num
  have hlen : (0 : ℕ) < cC1.az.length := by decide
  unfold AltAzShadowMask.inRange1
  rw [show cC1.tel_az_max = (360 : ℚ) from rfl, show cC1.tel_az_min = (0 : ℚ) from rfl,
    if_pos hkey, if_pos hlen]

/-- The fixture's own azimuth range `[0°, 360°]` spans a full circle, so the
own azimuth vote passes. -/
theorem bfC1_inRange2 : bfC1.inRange2 cC1 0 = 2 := by
  have hkey : irKey (360 : ℚ) - irKey (0 : ℚ) ≥ irKey two_pi := by
    rw [irKey_360, irKey_0, irKey_two_pi]
    norm_num
  have hlen : (0 : ℕ) < cC1.az.length := by decide
  unfold AltAzShadowMask.inRange2
  rw [show bfC1.max_az = (360 : ℚ) from rfl, show bfC1.min_az = (0 : ℚ) from rfl,
    if_pos hkey, if_pos hlen]

/-- Full evaluation of the fixture: the single pixel is unmasked. -/
theorem bfC1_eval : bfC1.calcValue cC1 = [Val.num 0] := by
  unfold AltAzShadowMask.calcValue
  rw [show bfC1.npix = 1 from rfl, show List.range 1 = [0] from rfl, List.map_cons,
    List.map_nil, if_pos]
  rw [bfC1_inRangeAlt, bfC1_inRange1, bfC1_inRange2]
  norm_num

/-- Claim C1 (status: corrected; counterexample).  With own band `[20°, 82°]`,
hardware limits `[10°, 86°]` and `pad = 2°`, the claim's both-bands-padded
altitude band is `[22°, 80°]`, so a pixel at altitude 21° would be masked;
the code pads only the hardware band, uses `[20°, 82°]`, and unmasks the
pixel. -/
theorem claim1_counterexample :
    bfC1.calcValue cC1 = [Val.num 0] ∧ cC1.alt[0]? = some 21 ∧
      ¬ irGe (21 : ℚ) (specClaimAltLo bfC1 cC1) := by
  refine ⟨bfC1_eval, rfl, ?_⟩
  have hspec : specClaimAltLo bfC1 cC1 = 22 := by
    show max ((10 : ℚ) + 2) (20 + 2) = 22
    rw [max_eq_right (by norm_num : ((10 : ℚ) + 2) ≤ 20 + 2)]
    norm_num
  rw [hspec]
  show ¬ (irKey (22 : ℚ) ≤ irKey 21)
  rw [irKey_22, irKey_21]
  norm_num

/-- The hypothesis-discharging witness for `claim1_theorem`, instantiated at
the fixture. -/
theorem claim1_witness :
    (bfC1.calcValue cC1)[0]? = some (Val.num 0) ↔
      ((∃ a, cC1.alt[0]? = some a ∧
          irGe a (max (cC1.tel_alt_min + bfC1.pad) bfC1.min_alt) ∧
          irLe a (min (cC1.tel_alt_max - bfC1.pad) bfC1.max_alt)) ∧
        (∃ a, (bfC1.future_alt cC1)[0]? = some a ∧
          irGe a (max (cC1.tel_alt_min + bfC1.pad) bfC1.min_alt) ∧
          irLe a (min (cC1.tel_alt_max - bfC1.pad) bfC1.max_alt))) ∧
      bfC1.inRange1 cC1 0 > 1 ∧ bfC1.inRange2 cC1 0 > 1 :=
  claim1_theorem bfC1 cC1 0 (by decide)

/-- An azimuth membership vote is never more than 1. -/
theorem azMemCount_le_one (xs : List ℚ) (lower offset azr : ℚ) (i : ℕ) :
    azMemCount xs lower offset azr i ≤ 1 := by
  unfold azMemCount
  cases hx : xs[i]? with
  | none => simp
  | some x =>
    rw [Option.elim_some]
    split <;> omega

/-- An azimuth membership vote equals 1 exactly when the pixel exists and
its shifted azimuth passes the modular test. -/
theorem azMemCount_eq_one_iff (xs : List ℚ) (lower offset azr : ℚ) (i : ℕ) :
    azMemCount xs lower offset azr i = 1 ↔
      ∃ x, xs[i]? = some x ∧ qmod (x - lower - offset) two_pi ≤ azr := by
  unfold azMemCount
  cases hx : xs[i]? with
  | none => simp
  | some x =>
    rw [Option.elim_some]
    constructor
    · intro h
      refine ⟨x, rfl, ?_⟩
      by_contra hq
      rw [if_neg hq] at h
      omega
    · rintro ⟨y, hy, hq⟩
      rw [Option.some.injEq] at hy
      subst hy
      rw [if_pos hq]

/-- Claim C7 (status: confirmed).  In `AltAzShadowMaskBasisFunction.evaluate`:
an azimuth range (hardware or own) whose numerical span is at least 360°
imposes no restriction — every existing pixel gets the full vote 2 for both
current and projected time; when the quantized span test takes the
restricted branch, a full vote is only obtained when both the current and
the projected azimuth pass the modular membership test relative to the
range's lower bound; and the default own range `[0°, 360°]` passes
everywhere. -/
theorem claim7_theorem (bf : AltAzShadowMask) (c : Conditions) :
    (two_pi ≤ bf.max_az - bf.min_az → ∀ i, i < c.az.length → bf.inRange2 c i = 2) ∧
    (two_pi ≤ c.tel_az_max - c.tel_az_min → ∀ i, i < c.az.length → bf.inRange1 c i = 2) ∧
    (irKey bf.max_az - irKey bf.min_az < irKey two_pi → ∀ i, bf.inRange2 c i = 2 →
      ∃ x y, c.az[i]? = some x ∧ (bf.future_az c)[i]? = some y ∧
        qmod (x - bf.min_az) two_pi ≤ qmod (bf.max_az - bf.min_az) two_pi ∧
        qmod (y - bf.min_az) two_pi ≤ qmod (bf.max_az - bf.min_az) two_pi) ∧
    (irKey c.tel_az_max - irKey c.tel_az_min < irKey two_pi → ∀ i, bf.inRange1 c i = 2 →
      ∃ x y, c.az[i]? = some x ∧ (bf.future_az c)[i]? = some y ∧
        qmod (x - c.tel_az_min - bf.pad) two_pi ≤
          qmod (c.tel_az_max - c.tel_az_min) two_pi - 2 * bf.pad ∧
        qmod (y - c.tel_az_min - bf.pad) two_pi ≤
          qmod (c.tel_az_max - c.tel_az_min) two_pi - 2 * bf.pad) ∧
    (bf.min_az = 0 → bf.max_az = 360 → ∀ i, i < c.az.length → bf.inRange2 c i = 2) := by
  refine ⟨?_, ?_, ?_, ?_, ?_⟩
  · intro h i hlen
    have hk := irKey_span_ge h
    unfold AltAzShadowMask.inRange2
    rw [if_pos (by omega), if_pos hlen]
  · intro h i hlen
    have hk := irKey_span_ge h
    unfold AltAzShadowMask.inRange1
    rw [if_pos (by omega), if_pos hlen]
  · intro h i h2
    unfold AltAzShadowMask.inRange2 at h2
    rw [if_neg (by omega)] at h2
    have hA := azMemCount_le_one c.az bf.min_az 0 (qmod (bf.max_az - bf.min_az) two_pi) i
    have hB := azMemCount_le_one (bf.future_az c) bf.min_az 0
      (qmod (bf.max_az - bf.min_az) two_pi) i
    have hA1 : azMemCount c.az bf.min_az 0 (qmod (bf.max_az - bf.min_az) two_pi) i = 1 := by
      omega
    have hB1 : azMemCount (bf.future_az c) bf.min_az 0
        (qmod (bf.max_az - bf.min_az) two_pi) i = 1 := by
      omega
    rcases (azMemCount_eq_one_iff _ _ _ _ _).mp hA1 with ⟨x, hx, hqx⟩
    rcases (azMemCount_eq_one_iff _ _ _ _ _).mp hB1 with ⟨y, hy, hqy⟩
    rw [sub_zero] at hqx hqy
    exact ⟨x, y, hx, hy, hqx, hqy⟩
  · intro h i h2
    unfold AltAzShadowMask.inRange1 at h2
    rw [if_neg (by omega)] at h2
    have hA := azMemCount_le_one c.az c.tel_az_min bf.pad
      (qmod (c.tel_az_max - c.tel_az_min) two_pi - 2 * bf.pad) i
    have hB := azMemCount_le_one (bf.future_az c) c.tel_az_min bf.pad
      (qmod (c.tel_az_max - c.tel_az_min) two_pi - 2 * bf.pad) i
    have hA1 : azMemCount c.az c.tel_az_min bf.pad
        (qmod (c.tel_az_max - c.tel_az_min) two_pi - 2 * bf.pad) i = 1 := by
      omega
    have hB1 : azMemCount (bf.future_az c) c.tel_az_min bf.pad
        (qmod (c.tel_az_max - c.tel_az_min) two_pi - 2 * bf.pad) i = 1 := by
      omega
    rcases (azMemCount_eq_one_iff _ _ _ _ _).mp hA1 with ⟨x, hx, hqx⟩
    rcases (azMemCount_eq_one_iff _ _ _ _ _).mp hB1 with ⟨y, hy, hqy⟩
    exact ⟨x, y, hx, hy, hqx, hqy⟩
  · intro h0 h360 i hlen
    have hkey : irKey (360 : ℚ) - irKey (0 : ℚ) ≥ irKey two_pi := by
      rw [irKey_360, irKey_0, irKey_two_pi]
      norm_num
    unfold AltAzShadowMask.inRange2
    rw [h0, h360, if_pos hkey, if_pos hlen]

/-- The hypothesis-discharging witness for `claim7_theorem`: the fixture's
own azimuth range spans the full circle, so its vote is 2. -/
theorem claim7_witness : bfC1.inRange2 cC1 0 = 2 :=
  (claim7_theorem bfC1 cC1).1 (by norm_num [bfC1, two_pi]) 0 (by decide)

/-- Evaluation of the restricted-range fixture: azimuth exactly 180° passes
the raw modular membership test `(az - 0) % 360 <= 180` now and at the
projected time, so the own azimuth vote is full. -/
theorem bfZ2_inRange2_cZ1 : bfZ2.inRange2 cZ1 0 = 2 := by
  unfold AltAzShadowMask.inRange2
  rw [show bfZ2.max_az = (180 : ℚ) from rfl, show bfZ2.min_az = (0 : ℚ) from rfl,
    show cZ1.az = [(180 : ℚ)] from rfl, show bfZ2.future_az cZ1 = [(180 : ℚ)] from rfl]
  rw [if_neg (by rw [irKey_180, irKey_0, irKey_two_pi]; norm_num)]
  rw [show (180 : ℚ) - 0 = 180 from by norm_num, qmod_180]
  unfold azMemCount
  rw [show ([(180 : ℚ)])[0]? = some 180 from rfl, Option.elim_some]
  rw [show (180 : ℚ) - 0 - 0 = 180 from by norm_num, qmod_180]
  rw [if_pos le_rfl]

/-- Evaluation of the perturbed fixture: the azimuth 180° + 1/300000 has the
same quantized key but fails the raw modular membership test at both times,
so the own azimuth vote is zero. -/
theorem bfZ2_inRange2_cZ2 : bfZ2.inRange2 cZ2 0 = 0 := by
  unfold AltAzShadowMask.inRange2
  rw [show bfZ2.max_az = (180 : ℚ) from rfl, show bfZ2.min_az = (0 : ℚ) from rfl,
    show cZ2.az = [(180 + 1 / 300000 : ℚ)] from rfl,
    show bfZ2.future_az cZ2 = [(180 + 1 / 300000 : ℚ)] from rfl]
  rw [if_neg (by rw [irKey_180, irKey_0, irKey_two_pi]; norm_num)]
  rw [show (180 : ℚ) - 0 = 180 from by norm_num, qmod_180]
  unfold azMemCount
  rw [show ([(180 + 1 / 300000 : ℚ)])[0]? = some (180 + 1 / 300000) from rfl, Option.elim_some]
  rw [show (180 + 1 / 300000 : ℚ) - 0 - 0 = 180 + 1 / 300000 from by norm_num, qmod_180_plus]
  rw [if_neg (by norm_num)]

/-- Claim C4 (status: corrected; counterexample).  The claim as stated fails
in two places where the source compares with raw relational operators
instead of the deterministic comparator: `HaMaskBasisFunction` (hour angles
0 and −1/200000 share key 0 yet give different maps at the threshold
`ha_min = 0`), and the azimuth modular membership tests of
`AltAzShadowMaskBasisFunction` (azimuths 180° and 180° + 1/300000 share key
18000000 yet receive different azimuth votes for the own range
`[0°, 180°]`). -/
theorem claim4_counterexample :
    (cH1.HA.map irKey = cH2.HA.map irKey ∧ bfH.calcValue cH1 ≠ bfH.calcValue cH2) ∧
    (cZ1.az.map irKey = cZ2.az.map irKey ∧
      (bfZ2.future_az cZ1).map irKey = (bfZ2.future_az cZ2).map irKey ∧
      bfZ2.inRange2 cZ1 0 ≠ bfZ2.inRange2 cZ2 0) := by
  refine ⟨⟨?_, ?_⟩, ?_, ?_, ?_⟩
  · show [irKey (0 : ℚ)] = [irKey (-1 / 200000 : ℚ)]
    rw [irKey_0, irKey_neg_small]
  · rw [bfH_cH1_eval, bfH_cH2_eval]
    simp
  · show [irKey (180 : ℚ)] = [irKey (180 + 1 / 300000 : ℚ)]
    rw [irKey_180, irKey_180_plus]
  · show [irKey (180 : ℚ)] = [irKey (180 + 1 / 300000 : ℚ)]
    rw [irKey_180, irKey_180_plus]
  · rw [bfZ2_inRange2_cZ1, bfZ2_inRange2_cZ2]
    norm_num

/-- Claim C4 (status: corrected; amended theorem).  For every threshold
comparison of the embedded masking functions that goes through the
deterministic comparator — all of `SolarElongMaskBasisFunction`,
`SolarElongationMaskBasisFunction` and `MaskAzimuthBasisFunction`, and the
altitude-band votes and quantized azimuth-span tests of
`AltAzShadowMaskBasisFunction` — two snapshots whose compared angular
quantities quantize to the same integer keys produce identical results; in
particular, taking the two snapshots equal, repeated evaluation of a fixed
function on a fixed snapshot yields an identical map.  (`HaMaskBasisFunction`
and the azimuth modular membership tests of `AltAzShadowMaskBasisFunction`
compare raw and are refuted by `claim4_counterexample`.) -/
theorem claim4_theorem (bfS : SolarElongMask) (bfE : SolarElongationMask)
    (bfA : MaskAzimuth) (bfZ : AltAzShadowMask) (c c' : Conditions)
    (hse : c.solar_elongation.map irKey = c'.solar_elongation.map irKey)
    (haz : c.az.map irKey = c'.az.map irKey)
    (halt : c.alt.map irKey = c'.alt.map irKey)
    (hfalt : (bfZ.future_alt c).map irKey = (bfZ.future_alt c').map irKey)
    (hlo : irKey (bfZ.altLo c) = irKey (bfZ.altLo c'))
    (hhi : irKey (bfZ.altHi c) = irKey (bfZ.altHi c'))
    (hsmax : irKey c.tel_az_max = irKey c'.tel_az_max)
    (hsmin : irKey c.tel_az_min = irKey c'.tel_az_min) :
    bfS.calcValue c = bfS.calcValue c' ∧
    bfE.calcValue c = bfE.calcValue c' ∧
    bfA.calcValue c = bfA.calcValue c' ∧
    (∀ i, bfZ.inRangeAlt c i = bfZ.inRangeAlt c' i) ∧
    ((irKey c.tel_az_max - irKey c.tel_az_min ≥ irKey two_pi) ↔
      (irKey c'.tel_az_max - irKey c'.tel_az_min ≥ irKey two_pi)) := by
  refine ⟨?_, ?_, ?_, ?_, ?_⟩
  · unfold SolarElongMask.calcValue
    apply List.map_congr_left
    intro i _
    have hk := getElem?_map_irKey_congr hse i
    cases hx : c.solar_elongation[i]? with
    | none =>
      cases hx' : c'.solar_elongation[i]? with
      | none => rfl
      | some e' => rw [hx, hx'] at hk; simp at hk
    | some e =>
      cases hx' : c'.solar_elongation[i]? with
      | none => rw [hx, hx'] at hk; simp at hk
      | some e' =>
        rw [hx, hx'] at hk
        simp only [Option.map_some', Option.some.injEq] at hk
        simp only [Option.elim_some, irGt, hk]
  · unfold SolarElongationMask.calcValue
    apply List.map_congr_left
    intro i _
    have hk := getElem?_map_irKey_congr hse i
    cases hx : c.solar_elongation[i]? with
    | none =>
      cases hx' : c'.solar_elongation[i]? with
      | none => rfl
      | some e' => rw [hx, hx'] at hk; simp at hk
    | some e =>
      cases hx' : c'.solar_elongation[i]? with
      | none => rw [hx, hx'] at hk; simp at hk
      | some e' =>
        rw [hx, hx'] at hk
        simp only [Option.map_some', Option.some.injEq] at hk
        simp only [Option.elim_some, irGe, irLe, hk]
  · unfold MaskAzimuth.calcValue
    apply List.map_congr_left
    intro i _
    have hk := getElem?_map_irKey_congr haz i
    cases hx : c.az[i]? with
    | none =>
      cases hx' : c'.az[i]? with
      | none => rfl
      | some e' => rw [hx, hx'] at hk; simp at hk
    | some e =>
      cases hx' : c'.az[i]? with
      | none => rw [hx, hx'] at hk; simp at hk
      | some e' =>
        rw [hx, hx'] at hk
        simp only [Option.map_some', Option.some.injEq] at hk
        simp only [Option.elim_some, irGt, irLt, hk]
  · intro i
    have hiff1 := altOk_key_iff i hlo hhi halt
    have hiff2 := altOk_key_iff i hlo hhi hfalt
    unfold AltAzShadowMask.inRangeAlt
    rw [if_congr hiff1 rfl rfl, if_congr hiff2 rfl rfl]
  · simp only [hsmax, hsmin]

/-- The hypothesis-discharging witness for `claim4_theorem`: perturbing the
snapshot's elongation and azimuth by a third of a quantization step keeps
every compared key, and all the comparator-based results are unchanged (the
altitude-vote conjunct is instantiated at the fixture's pixel 0). -/
theorem claim4_witness :
    bfSE.calcValue cH1 = bfSE.calcValue cH3 ∧
    bfElT.calcValue cH1 = bfElT.calcValue cH3 ∧
    bfAzOne.calcValue cH1 = bfAzOne.calcValue cH3 ∧
    bfC1.inRangeAlt cH1 0 = bfC1.inRangeAlt cH3 0 ∧
    ((irKey cH1.tel_az_max - irKey cH1.tel_az_min ≥ irKey two_pi) ↔
      (irKey cH3.tel_az_max - irKey cH3.tel_az_min ≥ irKey two_pi)) := by
  have h := claim4_theorem bfSE bfElT bfAzOne bfC1 cH1 cH3
    (by
      show [irKey (0 : ℚ)] = [irKey (1 / 300000 : ℚ)]
      rw [irKey_0, irKey_third_small])
    (by
      show [irKey (100 : ℚ)] = [irKey (100 + 1 / 300000 : ℚ)]
      rw [irKey_100, irKey_100_plus])
    rfl rfl rfl rfl rfl rfl
  exact ⟨h.1, h.2.1, h.2.2.1, h.2.2.2.1 0, h.2.2.2.2⟩

/-- Pointwise reading of an elementwise map product. -/
theorem getElem?_mulMaps_some {a b : List Val} {i : ℕ} {x y : Val}
    (hx : a[i]? = some x) (hy : b[i]? = some y) :
    (mulMaps a b)[i]? = some (Val.mul x y) := by
  induction a generalizing b i with
  | nil => simp at hx
  | cons v vs ih =>
    cases b with
    | nil => simp at hy
    | cons w ws =>
      cases i with
      | zero =>
        rw [List.getElem?_cons_zero, Option.some.injEq] at hx hy
        subst hx
        subst hy
        unfold mulMaps
        rw [List.zipWith_cons_cons, List.getElem?_cons_zero]
      | succ j =>
        rw [List.getElem?_cons_succ] at hx hy
        unfold mulMaps at ih ⊢
        rw [List.zipWith_cons_cons, List.getElem?_cons_succ]
        exact ih hx hy

/-- Folding elementwise products preserves the accumulator's length when all
factors have that length. -/
theorem foldl_mulMaps_length (maps : List (List Val)) (acc : List Val)
    (h : ∀ l ∈ maps, l.length = acc.length) :
    (maps.foldl mulMaps acc).length = acc.length := by
  induction maps generalizing acc with
  | nil => rfl
  | cons l ls ih =>
    rw [List.foldl_cons]
    have hl : (mulMaps acc l).length = acc.length := by
      unfold mulMaps
      rw [List.length_zipWith, h l (by simp)]
      omega
    rw [ih (mulMaps acc l) (fun l' hl' => by rw [hl]; exact h l' (by simp [hl'])), hl]

/-- Pointwise reading of the whole product fold: the cell at `i` is the fold
of the members' cells at `i`. -/
theorem foldl_mulMaps_getElem? (maps : List (List Val)) (acc : List Val) (i : ℕ)
    (h : ∀ l ∈ maps, l.length = acc.length) (hi : i < acc.length) (x : Val)
    (hx : acc[i]? = some x) :
    (maps.foldl mulMaps acc)[i]? =
      some (maps.foldl (fun v l => Val.mul v (l.getD i Val.nan)) x) := by
  induction maps generalizing acc x with
  | nil => simpa using hx
  | cons l ls ih =>
    rw [List.foldl_cons, List.foldl_cons]
    have hlen : l.length = acc.length := h l (by simp)
    have hy : l[i]? = some (l.getD i Val.nan) := by
      rw [List.getD_eq_getElem?_getD, List.getElem?_eq_getElem (by omega : i < l.length)]
      rfl
    have hmul : (mulMaps acc l)[i]? = some (Val.mul x (l.getD i Val.nan)) :=
      getElem?_mulMaps_some hx hy
    have hlen2 : (mulMaps acc l).length = acc.length := by
      unfold mulMaps
      rw [List.length_zipWith, hlen]
      omega
    exact ih (mulMaps acc l)
      (fun l' hl' => by rw [hlen2]; exact h l' (by simp [hl'])) (by omega) _ hmul

/-- NaN absorbs the cell-level product fold. -/
theorem foldl_val_mul_nan (vs : List Val) : vs.foldl Val.mul Val.nan = Val.nan := by
  induction vs with
  | nil => rfl
  | cons v vs ih =>
    rw [List.foldl_cons, show Val.mul Val.nan v = Val.nan from by cases v <;> rfl]
    exact ih

/-- Folding the cell-level product from the template value 0: NaN if some
factor is NaN, 0 otherwise. -/
theorem foldl_val_mul_zero (vs : List Val) :
    vs.foldl Val.mul (Val.num 0) = if vs.any Val.isNan then Val.nan else Val.num 0 := by
  induction vs with
  | nil => simp
  | cons v vs ih =>
    cases v with
    | nan =>
      rw [List.foldl_cons, show Val.mul (Val.num 0) Val.nan = Val.nan from rfl,
        foldl_val_mul_nan]
      simp [Val.isNan]
    | num q =>
      have h0 : Val.mul (Val.num 0) (Val.num q) = Val.num 0 := by
        show Val.num (0 * q) = Val.num 0
        rw [zero_mul]
      rw [List.foldl_cons, h0, ih]
      simp [Val.isNan]

/-- Lemma: `any` commutes with `map`. -/
theorem any_map_general {α β : Type} (l : List α) (f : α → β) (p : β → Bool) :
    (l.map f).any p = l.any fun a => p (f a) := by
  induction l with
  | nil => rfl
  | cons x xs ih => simp [ih]

/-- The aggregator's member fold, rewritten as a fold over the members'
maps. -/
theorem foldl_map_mulMaps (bfs : List BasisFunction) (c : Conditions) (acc : List Val) :
    bfs.foldl (fun a bf => mulMaps a (bf.calcValue c)) acc
      = (bfs.map fun bf => bf.calcValue c).foldl mulMaps acc := by
  induction bfs generalizing acc with
  | nil => rfl
  | cons bf rest ih => rw [List.foldl_cons, List.map_cons, List.foldl_cons, ih]

/-- The cell-level fold, rewritten as a fold over the members' cells. -/
theorem foldl_mul_getD (maps : List (List Val)) (x : Val) (i : ℕ) :
    maps.foldl (fun v l => Val.mul v (l.getD i Val.nan)) x
      = (maps.map fun l => l.getD i Val.nan).foldl Val.mul x := by
  induction maps generalizing x with
  | nil => rfl
  | cons l ls ih => rw [List.foldl_cons, List.map_cons, List.foldl_cons, ih]

/-- The combined map of the aggregator has the grid's length. -/
theorem areaCalc_length (m : AreaCheckMask) (c : Conditions)
    (hlen : ∀ bf ∈ m.bf_list, (bf.calcValue c).length = m.npix) :
    (m.calcValue c).length = m.npix := by
  unfold AreaCheckMask.calcValue
  rw [foldl_map_mulMaps]
  rw [foldl_mulMaps_length _ _ (fun l hl => by
    rcases List.mem_map.mp hl with ⟨bf, hbf, rfl⟩
    rw [show (zerosMap m.npix).length = m.npix from List.length_replicate _ _]
    exact hlen bf hbf)]
  exact List.length_replicate _ _

/-- Pointwise characterisation of the aggregator's combined map: a cell is
NaN when some member's cell is NaN, and the template value 0 otherwise. -/
theorem areaCalc_getElem? (m : AreaCheckMask) (c : Conditions)
    (hlen : ∀ bf ∈ m.bf_list, (bf.calcValue c).length = m.npix) (i : ℕ) (hi : i < m.npix) :
    (m.calcValue c)[i]? =
      some (if (m.bf_list.any fun bf => ((bf.calcValue c).getD i Val.nan).isNan) then Val.nan
        else Val.num 0) := by
  unfold AreaCheckMask.calcValue
  rw [foldl_map_mulMaps]
  have hzlen : (zerosMap m.npix).length = m.npix := List.length_replicate _ _
  have hzget : (zerosMap m.npix)[i]? = some (Val.num 0) := by
    unfold zerosMap
    rw [List.getElem?_replicate, if_pos hi]
  rw [foldl_mulMaps_getElem? _ _ i (fun l hl => by
      rcases List.mem_map.mp hl with ⟨bf, hbf, rfl⟩
      rw [hzlen]
      exact hlen bf hbf) (by omega) _ hzget]
  rw [foldl_mul_getD, foldl_val_mul_zero, List.map_map, any_map_general]
  rfl

/-- Evaluation of the one-pixel member: azimuth 200° is outside the open
interval `(0°, 180°)`, so the pixel holds the feasible sentinel 1. -/
theorem bfAzOne_eval : bfAzOne.calcValue cOne = [Val.num 1] := by
  unfold MaskAzimuth.calcValue
  rw [show bfAzOne.npix = 1 from rfl, show List.range 1 = [0] from rfl, List.map_cons,
    List.map_nil, show cOne.az[0]? = some (200 : ℚ) from rfl, Option.elim_some]
  rw [if_neg]
  rintro ⟨-, hlt⟩
  have h : irKey (200 : ℚ) < irKey 180 := hlt
  rw [irKey_200, irKey_180] at h
  norm_num at h

/-- The aggregator's combined map over the one-member fixture: the zeros
template times `[1]` is `[0]`. -/
theorem mOne_calc_eval : mOne.calcValue cOne = [Val.num 0] := by
  unfold AreaCheckMask.calcValue
  rw [show mOne.bf_list = [memberOne] from rfl, List.foldl_cons, List.foldl_nil]
  rw [show memberOne.calcValue cOne = [Val.num 1] from bfAzOne_eval]
  show mulMaps [Val.num 0] [Val.num 1] = [Val.num 0]
  unfold mulMaps
  rw [List.zipWith_cons_cons, List.zipWith_nil_right]
  show [Val.num (0 * 1)] = [Val.num 0]
  rw [zero_mul]

/-- The members' own elementwise product over the one-member fixture is
`[1]`. -/
theorem mOne_membersProduct_eval : membersProduct mOne cOne = [Val.num 1] := by
  unfold membersProduct
  rw [show mOne.bf_list = [memberOne] from rfl, List.map_cons, List.map_nil,
    List.foldl_cons, List.foldl_nil]
  rw [show memberOne.calcValue cOne = [Val.num 1] from bfAzOne_eval]
  show mulMaps [Val.num 1] [Val.num 1] = [Val.num 1]
  unfold mulMaps
  rw [List.zipWith_cons_cons, List.zipWith_nil_right]
  show [Val.num (1 * 1)] = [Val.num 1]
  rw [one_mul]

/-- Claim C5 (status: corrected; counterexample).  The claim says the
aggregator's value map equals the elementwise product of the members' maps.
With the single member `MaskAzimuthBasisFunction` mapping its pixel to the
feasible sentinel 1, the members' product is `[1]`, but the aggregator
starts from its all-zeros template, so its value map is `[0]`. -/
theorem claim5_counterexample :
    mOne.calcValue cOne = [Val.num 0] ∧ membersProduct mOne cOne = [Val.num 1] ∧
      mOne.calcValue cOne ≠ membersProduct mOne cOne := by
  refine ⟨mOne_calc_eval, mOne_membersProduct_eval, ?_⟩
  rw [mOne_calc_eval, mOne_membersProduct_eval]
  intro h
  have h' := List.head_eq_of_cons_eq h
  exact Val.noConfusion h' (fun hq => by norm_num at hq)

/-- Claim C5 (status: corrected; amended theorem).  The aggregator's value map
is the zeros template multiplied elementwise by the members' maps: a pixel
is NaN iff at least one member masks it (so the combined masked set is the
union of the members' masked sets), and every other pixel holds 0. -/
theorem claim5_theorem (m : AreaCheckMask) (c : Conditions)
    (hlen : ∀ bf ∈ m.bf_list, (bf.calcValue c).length = m.npix) (i : ℕ) (hi : i < m.npix) :
    ((m.calcValue c)[i]? = some Val.nan ↔
      ∃ bf ∈ m.bf_list, (bf.calcValue c).getD i Val.nan = Val.nan) ∧
    ((¬ ∃ bf ∈ m.bf_list, (bf.calcValue c).getD i Val.nan = Val.nan) →
      (m.calcValue c)[i]? = some (Val.num 0)) := by
  have h := areaCalc_getElem? m c hlen i hi
  by_cases hA : (m.bf_list.any fun bf => ((bf.calcValue c).getD i Val.nan).isNan) = true
  · rw [if_pos hA] at h
    have hex : ∃ bf ∈ m.bf_list, (bf.calcValue c).getD i Val.nan = Val.nan := by
      rcases List.any_eq_true.mp hA with ⟨bf, hbf, hp⟩
      exact ⟨bf, hbf, (isNan_eq_true_iff _).mp hp⟩
    exact ⟨⟨fun _ => hex, fun _ => h⟩, fun hne => absurd hex hne⟩
  · rw [if_neg hA] at h
    constructor
    · constructor
      · intro hcell
        rw [h] at hcell
        exact absurd (Option.some.inj hcell) (fun hq => Val.noConfusion hq)
      · rintro ⟨bf, hbf, hp⟩
        exact absurd (List.any_eq_true.mpr ⟨bf, hbf, (isNan_eq_true_iff _).mpr hp⟩) hA
    · intro _
      exact h

/-- The hypothesis-discharging witness for `claim5_theorem`, at the
one-member fixture. -/
theorem claim5_witness :
    ((mOne.calcValue cOne)[0]? = some Val.nan ↔
      ∃ bf ∈ mOne.bf_list, (bf.calcValue cOne).getD 0 Val.nan = Val.nan) ∧
    ((¬ ∃ bf ∈ mOne.bf_list, (bf.calcValue cOne).getD 0 Val.nan = Val.nan) →
      (mOne.calcValue cOne)[0]? = some (Val.num 0)) :=
  claim5_theorem mOne cOne
    (by
      intro bf hbf
      rcases List.mem_singleton.mp hbf with rfl
      rfl)
    0 (by decide)

/-- Counting over a list equals counting its cells by index. -/
theorem countP_eq_range_countP {α : Type} (l : List α) (d : α) (p : α → Bool) :
    l.countP p = (List.range l.length).countP fun i => p (l.getD i d) := by
  induction l with
  | nil => rfl
  | cons x xs ih =>
    rw [List.countP_cons, List.length_cons, List.range_succ_eq_map, List.countP_cons,
      List.countP_map]
    have hzero : (x :: xs).getD 0 d = x := rfl
    have hsucc : ((fun i => p ((x :: xs).getD i d)) ∘ Nat.succ) = fun i => p (xs.getD i d) := by
      funext i
      rfl
    rw [hzero, hsucc, ← ih]

/-- Counting is pointwise: predicates that agree on the list's members count
the same. -/
theorem countP_congr_mem {α : Type} {l : List α} {p q : α → Bool}
    (h : ∀ a ∈ l, p a = q a) : l.countP p = l.countP q := by
  induction l with
  | nil => rfl
  | cons x xs ih =>
    rw [List.countP_cons, List.countP_cons, h x (by simp),
      ih (fun a ha => h a (by simp [ha]))]

/-- The aggregator's zero-cell count is the count of pixels no member
masks. -/
theorem countEqZero_eq_unmaskedCount (m : AreaCheckMask) (c : Conditions)
    (hlen : ∀ bf ∈ m.bf_list, (bf.calcValue c).length = m.npix) :
    countEqZero (m.calcValue c) = unmaskedCount m c := by
  unfold countEqZero unmaskedCount
  rw [countP_eq_range_countP (m.calcValue c) Val.nan, areaCalc_length m c hlen]
  apply countP_congr_mem
  intro i hi
  rw [List.mem_range] at hi
  have h := areaCalc_getElem? m c hlen i hi
  rw [List.getD_eq_getElem?_getD, h]
  by_cases hA : (m.bf_list.any fun bf => ((bf.calcValue c).getD i Val.nan).isNan) = true
  · rw [if_pos hA, Option.getD_some]
    have hall : (m.bf_list.all fun bf => !((bf.calcValue c).getD i Val.nan).isNan) = false := by
      rcases List.any_eq_true.mp hA with ⟨bf, hbf, hp⟩
      cases hfull : m.bf_list.all fun bf => !((bf.calcValue c).getD i Val.nan).isNan with
      | false => rfl
      | true =>
        have hq := List.all_eq_true.mp hfull bf hbf
        rw [hp] at hq
        exact absurd hq (by simp)
    rw [hall, decide_eq_false (fun hq => Val.noConfusion hq)]
  · rw [if_neg hA, Option.getD_some]
    have hall : (m.bf_list.all fun bf => !((bf.calcValue c).getD i Val.nan).isNan) = true := by
      rw [List.all_eq_true]
      intro bf hbf
      have hq : ((bf.calcValue c).getD i Val.nan).isNan = false := by
        cases hfull : ((bf.calcValue c).getD i Val.nan).isNan with
        | false => rfl
        | true => exact absurd (List.any_eq_true.mpr ⟨bf, hbf, hfull⟩) hA
      rw [hq]
      rfl
    rw [hall, decide_eq_true rfl]

/-- Claim C2 (status: corrected; amended theorem).  When every member's cheap
pre-check passes, `AreaCheckMaskBasisFunction.check_feasibility` returns
false exactly when (number of pixels no member masks) × (per-pixel area) is
strictly below `min_area`; at the exact boundary (equality) it returns
true. -/
theorem claim2_theorem (m : AreaCheckMask) (c : Conditions)
    (hpre : precheckList m.bf_list c = true)
    (hlen : ∀ bf ∈ m.bf_list, (bf.calcValue c).length = m.npix) :
    (m.checkFeasibility c = false ↔ m.pixArea * (unmaskedCount m c : ℚ) < m.min_area) ∧
    (m.pixArea * (unmaskedCount m c : ℚ) = m.min_area → m.checkFeasibility c = true) := by
  unfold AreaCheckMask.checkFeasibility
  rw [hpre, if_pos rfl, countEqZero_eq_unmaskedCount m c hlen]
  constructor
  · by_cases hlt : m.pixArea * (unmaskedCount m c : ℚ) < m.min_area
    · rw [if_pos hlt]
      exact ⟨fun _ => hlt, fun _ => rfl⟩
    · rw [if_neg hlt]
      exact ⟨fun h => Bool.noConfusion h, fun h => absurd h hlt⟩
  · intro he
    rw [if_neg (by rw [he]; exact lt_irrefl _)]

/-- Claim C2 (status: corrected; counterexample).  With the single member
mapping its pixel to sentinel 1 (so the members' own product is `[1]` and
the claim's count of product-zero pixels is 0), the claim predicts
infeasible (0 × 1 < 1/2); the code counts the zeros of its template-based
combined map (`[0]`, count 1) and returns feasible. -/
theorem claim2_counterexample :
    precheckList mOne.bf_list cOne = true ∧
    mOne.pixArea * (membersProductZeroCount mOne cOne : ℚ) < mOne.min_area ∧
    mOne.checkFeasibility cOne = true := by
  refine ⟨rfl, ?_, ?_⟩
  · have hz : membersProductZeroCount mOne cOne = 0 := by
      unfold membersProductZeroCount
      rw [mOne_membersProduct_eval]
      unfold countEqZero
      rw [List.countP_cons, List.countP_nil, decide_eq_false (by decide)]
      rfl
    rw [hz]
    show (1 : ℚ) * ((0 : ℕ) : ℚ) < 1 / 2
    norm_num
  · have h1 : mOne.calcValue cOne = [Val.num 0] := mOne_calc_eval
    unfold AreaCheckMask.checkFeasibility
    rw [show precheckList mOne.bf_list cOne = true from rfl, if_pos rfl, h1]
    have hcount : countEqZero [Val.num 0] = 1 := by
      unfold countEqZero
      rw [List.countP_cons, List.countP_nil, decide_eq_true rfl]
      rfl
    rw [hcount, if_neg]
    show ¬ ((1 : ℚ) * ((1 : ℕ) : ℚ) < 1 / 2)
    norm_num

/-- The hypothesis-discharging witness for `claim2_theorem`, at the
one-member fixture. -/
theorem claim2_witness :
    (mOne.checkFeasibility cOne = false ↔
      mOne.pixArea * (unmaskedCount mOne cOne : ℚ) < mOne.min_area) ∧
    (mOne.pixArea * (unmaskedCount mOne cOne : ℚ) = mOne.min_area →
      mOne.checkFeasibility cOne = true) :=
  claim2_theorem mOne cOne rfl
    (by
      intro bf hbf
      rcases List.mem_singleton.mp hbf with rfl
      rfl)

/-- The first loop of `check_feasibility` agrees with its instrumented
version. -/
theorem precheckList_eq_trace (l : List BasisFunction) (c : Conditions) :
    precheckList l c = (precheckTrace l c).1 := by
  induction l with
  | nil => rfl
  | cons bf rest ih =>
    unfold precheckList precheckTrace
    by_cases h : bf.checkFeas c = true
    · rw [if_pos h, if_pos h]
      exact ih
    · rw [if_neg h, if_neg h]

/-- If the members before `k` pass their pre-checks and member `k` fails,
the instrumented first loop stops after exactly `k + 1` pre-checks with
result false. -/
theorem precheckTrace_firstFail (l : List BasisFunction) (c : Conditions) (k : ℕ)
    (bfk : BasisFunction) (hk : l[k]? = some bfk)
    (hbefore : ((l.take k).all fun bf => bf.checkFeas c) = true)
    (hfail : bfk.checkFeas c = false) :
    precheckTrace l c = (false, k + 1) := by
  induction l generalizing k with
  | nil => simp at hk
  | cons bf rest ih =>
    cases k with
    | zero =>
      rw [List.getElem?_cons_zero, Option.some.injEq] at hk
      subst hk
      unfold precheckTrace
      rw [if_neg (by rw [hfail]; exact Bool.noConfusion)]
    | succ j =>
      rw [List.take_succ_cons, List.all_cons, Bool.and_eq_true] at hbefore
      rw [List.getElem?_cons_succ] at hk
      unfold precheckTrace
      rw [if_pos hbefore.1, ih j hk hbefore.2]

/-- Claim C6 (status: confirmed).  If the members before index `k` pass their
cheap pre-checks and member `k` fails its pre-check, then
`AreaCheckMaskBasisFunction.check_feasibility` returns false; the
instrumented run shows exactly `k + 1` members were pre-checked — none after
the failing one — and no member's full value map was computed. -/
theorem claim6_theorem (m : AreaCheckMask) (c : Conditions) (k : ℕ) (bfk : BasisFunction)
    (hk : m.bf_list[k]? = some bfk)
    (hbefore : ((m.bf_list.take k).all fun bf => bf.checkFeas c) = true)
    (hfail : bfk.checkFeas c = false) :
    m.checkFeasibility c = false ∧ m.checkFeasTrace c = ⟨false, k + 1, 0⟩ := by
  have ht := precheckTrace_firstFail m.bf_list c k bfk hk hbefore hfail
  constructor
  · unfold AreaCheckMask.checkFeasibility
    rw [precheckList_eq_trace, ht]
    rfl
  · unfold AreaCheckMask.checkFeasTrace
    rw [ht]
    rfl

/-- The hypothesis-discharging witness for `claim6_theorem`: in the
two-member fixture the first member's pre-check fails, so only one pre-check
runs, no map is evaluated, and the aggregate is infeasible. -/
theorem claim6_witness :
    mTwo.checkFeasibility cOne = false ∧ mTwo.checkFeasTrace cOne = ⟨false, 1, 0⟩ :=
  claim6_theorem mTwo cOne 0 failMember rfl rfl rfl

end RubinMask